import Mathlib

/-!
Verification development for the finance-tracker repository.

Shallow embedding of the core modules:
* `notes_manager.py`  — transaction identity (SHA-256 based), annotation store
  (load / save / set / get / search / statistics / clear) with an explicit
  file-system state and an explicit I/O-failure flag;
* `bank_reader.py`    — amount normalization and credit-card-payment filtering
  over a dataframe model (list of association-list rows plus a column list);
* `category_normalizer.py` — default category mapping, reverse index, classify.

Python strings are modelled by `String`; `str.strip()` by `pyStrip`,
`str.lower()` by `lowerStr`, substring tests (`in`, `str.contains` with
`case=False` on regex-metacharacter-free patterns) by `containsCI`.
Numeric cells are modelled by `ℚ` (pandas NaN/null by `Option`/`Cell.null`);
Python float division in statistics is modelled by exact rational division.
-/

/-- One step of Python `str.isspace`-style whitespace used by `strip`. -/
def isSpaceChar (c : Char) : Bool := c.isWhitespace

/-- Python `strip` on a character list: drop leading and trailing whitespace. -/
def pyStripList (cs : List Char) : List Char :=
  ((cs.dropWhile isSpaceChar).reverse.dropWhile isSpaceChar).reverse

/-- Python `str.strip()`. -/
def pyStrip (s : String) : String := ⟨pyStripList s.data⟩

/-- Python `str.lower()` (ASCII case mapping, as used by the code). -/
def lowerStr (s : String) : String := ⟨s.data.map Char.toLower⟩

/-- Boolean list-prefix test. -/
def prefixB : List Char → List Char → Bool
  | [], _ => true
  | _ :: _, [] => false
  | a :: as, b :: bs => a = b && prefixB as bs

/-- Boolean list-infix (contiguous substring) test; the empty pattern matches. -/
def infixB (pat : List Char) : List Char → Bool
  | [] => pat.isEmpty
  | s@(_ :: rest) => prefixB pat s || infixB pat rest

/-- Python `pat.lower() in hay.lower()` / pandas `str.contains(pat, case=False)`
for the literal (regex-metacharacter-free) patterns the code uses. -/
def containsCI (hay pat : String) : Bool :=
  infixB (lowerStr pat).data (lowerStr hay).data

/-- Association-list lookup, first match (Python dict lookup). -/
def dictGet? (m : List (String × String)) (k : String) : Option String :=
  match m with
  | [] => none
  | (k', v) :: rest => if k' = k then some v else dictGet? rest k

/-- Python `dict.get(k, d)`. -/
def dictGetD (m : List (String × String)) (k d : String) : String :=
  (dictGet? m k).getD d

/-- Python dict assignment `m[k] = v`: overwrite in place (keeping the key's
insertion position) or append at the end. -/
def dictInsert (m : List (String × String)) (k v : String) :
    List (String × String) :=
  match m with
  | [] => [(k, v)]
  | (k', v') :: rest =>
    if k' = k then (k, v) :: rest else (k', v') :: dictInsert rest k v

/-- Python `dict.pop(k, None)`: remove the key if present. -/
def dictRemove (m : List (String × String)) (k : String) :
    List (String × String) :=
  m.filter (fun p => p.1 ≠ k)

/-! ### SHA-256 (`hashlib.sha256`), FIPS 180-4, over byte lists -/

/-- Truncate to a 32-bit word. -/
def w32 (n : Nat) : Nat := n % 4294967296

/-- Right rotation of a 32-bit word (`x` assumed `< 2^32`). -/
def rotr32 (n x : Nat) : Nat := x / 2 ^ n + x % 2 ^ n * 2 ^ (32 - n)

def shaCh (x y z : Nat) : Nat := (x &&& y) ^^^ ((x ^^^ 4294967295) &&& z)

def shaMaj (x y z : Nat) : Nat := (x &&& y) ^^^ (x &&& z) ^^^ (y &&& z)

def bigSigma0 (x : Nat) : Nat := rotr32 2 x ^^^ rotr32 13 x ^^^ rotr32 22 x

def bigSigma1 (x : Nat) : Nat := rotr32 6 x ^^^ rotr32 11 x ^^^ rotr32 25 x

def smallSigma0 (x : Nat) : Nat := rotr32 7 x ^^^ rotr32 18 x ^^^ x / 2 ^ 3

def smallSigma1 (x : Nat) : Nat := rotr32 17 x ^^^ rotr32 19 x ^^^ x / 2 ^ 10

/-- The 64 SHA-256 round constants (decimal forms of the FIPS 180-4
hex constants `428a2f98`, `71374491`, ...). -/
def shaK : List Nat :=
  [1116352408, 1899447441, 3049323471, 3921009573, 961987163,
   1508970993, 2453635748, 2870763221, 3624381080, 310598401,
   607225278, 1426881987, 1925078388, 2162078206, 2614888103,
   3248222580, 3835390401, 4022224774, 264347078, 604807628,
   770255983, 1249150122, 1555081692, 1996064986, 2554220882,
   2821834349, 2952996808, 3210313671, 3336571891, 3584528711,
   113926993, 338241895, 666307205, 773529912, 1294757372,
   1396182291, 1695183700, 1986661051, 2177026350, 2456956037,
   2730485921, 2820302411, 3259730800, 3345764771, 3516065817,
   3600352804, 4094571909, 275423344, 430227734, 506948616,
   659060556, 883997877, 958139571, 1322822218, 1537002063,
   1747873779, 1955562222, 2024104815, 2227730452, 2361852424,
   2428436474, 2756734187, 3204031479, 3329325298]

/-- Initial hash value (decimal forms of `6a09e667`, `bb67ae85`, ...). -/
def shaH0 : List Nat :=
  [1779033703, 3144134277, 1013904242, 2773480762, 1359893119,
   2600822924, 528734635, 1541459225]

/-- Big-endian 8-byte encoding of the bit length. -/
def be8 (n : Nat) : List Nat :=
  [n / 2 ^ 56 % 256, n / 2 ^ 48 % 256, n / 2 ^ 40 % 256, n / 2 ^ 32 % 256,
   n / 2 ^ 24 % 256, n / 2 ^ 16 % 256, n / 2 ^ 8 % 256, n % 256]

/-- SHA-256 padding: `0x80`, zero fill, 64-bit big-endian bit length. -/
def sha256pad (msg : List Nat) : List Nat :=
  let l := msg.length
  let k := (64 - (l + 9) % 64) % 64
  msg ++ [128] ++ List.replicate k 0 ++ be8 (8 * l)

/-- Split the padded message into 64-byte blocks. -/
def chunkBytes : List Nat → List (List Nat)
  | [] => []
  | a :: rest => (a :: rest).take 64 :: chunkBytes ((a :: rest).drop 64)
  termination_by l => l.length
  decreasing_by simp; omega

/-- Group bytes into big-endian 32-bit words. -/
def bytesToWords : List Nat → List Nat
  | b0 :: b1 :: b2 :: b3 :: rest =>
    (((b0 * 256 + b1) * 256 + b2) * 256 + b3) :: bytesToWords rest
  | _ => []

/-- Append the next word of the message schedule. -/
def scheduleStep (ws : List Nat) : List Nat :=
  let t := ws.length
  let g : Nat → Nat := fun i => ws.getD (t - i) 0
  ws ++ [w32 (smallSigma1 (g 2) + g 7 + smallSigma0 (g 15) + g 16)]

/-- The 64-entry message schedule of one block. -/
def fullSchedule (block : List Nat) : List Nat :=
  (List.range 48).foldl (fun ws _ => scheduleStep ws) (bytesToWords block)

/-- One SHA-256 compression round over the 8-word state. -/
def roundStep (st : List Nat) (wk : Nat × Nat) : List Nat :=
  match st with
  | [a, b, c, d, e, f, g, h] =>
    let t1 := w32 (h + bigSigma1 e + shaCh e f g + wk.1 + wk.2)
    let t2 := w32 (bigSigma0 a + shaMaj a b c)
    [w32 (t1 + t2), a, b, c, w32 (d + t1), e, f, g]
  | other => other

/-- Compress one block into the running hash state. -/
def compressBlock (h : List Nat) (block : List Nat) : List Nat :=
  let fin := ((fullSchedule block).zip shaK).foldl roundStep h
  (h.zip fin).map fun p => w32 (p.1 + p.2)

/-- SHA-256 digest of a byte list, as eight 32-bit words. -/
def sha256words (msg : List Nat) : List Nat :=
  (chunkBytes (sha256pad msg)).foldl compressBlock shaH0

def hexDigit (n : Nat) : Char := Char.ofNat (if n < 10 then 48 + n else 87 + n)

def wordHexChars (w : Nat) : List Char :=
  [hexDigit (w / 2 ^ 28 % 16), hexDigit (w / 2 ^ 24 % 16),
   hexDigit (w / 2 ^ 20 % 16), hexDigit (w / 2 ^ 16 % 16),
   hexDigit (w / 2 ^ 12 % 16), hexDigit (w / 2 ^ 8 % 16),
   hexDigit (w / 2 ^ 4 % 16), hexDigit (w % 16)]

/-- The 64-character lowercase hex digest (`hexdigest()`). -/
def sha256hexChars (msg : List Nat) : List Char :=
  ((sha256words msg).map wordHexChars).flatten

/-- UTF-8 encoding of one character (`str.encode()`). -/
def utf8Bytes (c : Char) : List Nat :=
  let n := c.toNat
  if n < 128 then [n]
  else if n < 2048 then [192 + n / 64, 128 + n % 64]
  else if n < 65536 then [224 + n / 4096, 128 + n / 64 % 64, 128 + n % 64]
  else [240 + n / 262144, 128 + n / 4096 % 64, 128 + n / 64 % 64, 128 + n % 64]

/-- UTF-8 bytes of a string. -/
def strBytes (s : String) : List Nat := (s.data.map utf8Bytes).flatten

/-! ### `NotesManager.generate_transaction_id`

A pandas row is modelled as an association list from field name to the
`str(...)` string form of the field's value; `row.get(f, '')` is
`rowGetStr row f`. -/

def rowGetStr (row : List (String × String)) (k : String) : String :=
  dictGetD row k ""

/-- Embeds `NotesManager.generate_transaction_id`: join the string forms of the five
key fields with `'|'`, SHA-256 the UTF-8 bytes, keep the first 16 hex chars. -/
def generate_transaction_id (row : List (String × String)) : String :=
  let key_fields :=
    [rowGetStr row "date", rowGetStr row "amount", rowGetStr row "description",
     rowGetStr row "bank", rowGetStr row "source_file"]
  let combined_string := String.intercalate "|" key_fields
  ⟨(sha256hexChars (strBytes combined_string)).take 16⟩

/-! ### `NotesManager` annotation store

State model:
* `NotesData` is the in-memory JSON document (`notes_data`): the
  `transaction_notes` map (association list) and the metadata block.
* `FileState` is the backing file: `absent`, `corrupt` (present but not
  valid JSON), or `good d` (a valid snapshot `d`).
* `FS` also records whether a stray temporary file is left behind.
* An explicit `fail : Bool` parameter models an I/O error striking the
  write/rename part of `_save_notes_to_file`; `now : String` models
  `datetime.now().isoformat()`. -/

structure NotesMetadata where
  version : String
  created : String
  last_updated : String
deriving DecidableEq, Repr

structure NotesData where
  transaction_notes : List (String × String)
  metadata : NotesMetadata
deriving DecidableEq, Repr

inductive FileState where
  | absent
  | corrupt
  | good (d : NotesData)
deriving DecidableEq, Repr

structure FS where
  file : FileState
  tempLeft : Bool
deriving DecidableEq, Repr

/-- The default in-memory structure built in `__init__`. -/
def initialNotesData (now : String) : NotesData :=
  { transaction_notes := []
    metadata := { version := "1.0", created := now, last_updated := now } }

/-- Embeds `NotesManager._save_notes_to_file`.

The metadata timestamp is refreshed first; then a temporary file is written,
fsynced and atomically moved over the target.  On an I/O error (`fail`) the
inner handler closes and unlinks the temp file and re-raises; the outer
handler catches everything and only prints — so the call never raises, the
refreshed in-memory document is kept, the backing file is untouched and no
temp file is left behind. -/
def save_notes_to_file (fail : Bool) (now : String) (nd : NotesData)
    (fs : FS) : NotesData × FS :=
  let nd' := { nd with metadata := { nd.metadata with last_updated := now } }
  if fail then (nd', fs) else (nd', { fs with file := FileState.good nd' })

/-- Embeds `NotesManager.load_notes`: shared-lock read of the snapshot; on a missing
or undecodable file, keep the current in-memory data and persist it. -/
def load_notes (fail : Bool) (now : String) (nd : NotesData) (fs : FS) :
    NotesData × FS :=
  match fs.file with
  | FileState.good d => (d, fs)
  | _ => save_notes_to_file fail now nd fs

/-- Embeds `NotesManager._ensure_notes_file_exists`: create an empty snapshot when
the path does not exist. -/
def ensure_notes_file_exists (fail : Bool) (now : String) (nd : NotesData)
    (fs : FS) : NotesData × FS :=
  match fs.file with
  | FileState.absent => save_notes_to_file fail now nd fs
  | _ => (nd, fs)

/-- Embeds `NotesManager.__init__`: build the default structure, ensure the file
exists, then load.  `f1`/`f2` are the failure flags of the two potential
save calls. -/
def initStore (f1 f2 : Bool) (now : String) (fs : FS) : NotesData × FS :=
  let s1 := ensure_notes_file_exists f1 now (initialNotesData now) fs
  load_notes f2 now s1.1 s1.2

/-- Embeds `NotesManager.get_note`: the note, or `""` if absent. -/
def get_note (nd : NotesData) (transaction_id : String) : String :=
  dictGetD nd.transaction_notes transaction_id ""

/-- Embeds `NotesManager.set_note`: a non-blank note is stored stripped, a blank one
removes the entry; then `_save_notes_to_file` runs.  Since that call catches
every exception internally, the `except` branch of `set_note` is dead code
for I/O errors and the function returns `True`. -/
def set_note (fail : Bool) (now : String) (transaction_id note : String)
    (nd : NotesData) (fs : FS) : NotesData × FS × Bool :=
  let m :=
    if pyStrip note ≠ "" then
      dictInsert nd.transaction_notes transaction_id (pyStrip note)
    else
      dictRemove nd.transaction_notes transaction_id
  let st := save_notes_to_file fail now { nd with transaction_notes := m } fs
  (st.1, st.2, true)

/-- Embeds `NotesManager.clear_all_notes`. -/
def clear_all_notes (fail : Bool) (now : String) (nd : NotesData) (fs : FS) :
    NotesData × FS × Bool :=
  let st := save_notes_to_file fail now { nd with transaction_notes := [] } fs
  (st.1, st.2, true)

/-- Embeds `NotesManager.search_notes`: blank term yields `{}`; otherwise the entries
whose note contains the lowercased term. -/
def search_notes (nd : NotesData) (search_term : String) :
    List (String × String) :=
  if pyStrip search_term = "" then []
  else nd.transaction_notes.filter fun p => containsCI p.2 search_term

/-- Result record of `NotesManager.get_statistics` (numeric fields; the float
division is modelled over `ℚ`). -/
structure NotesStats where
  total_notes : Nat
  total_characters : Nat
  average_note_length : ℚ
  last_updated : String
  database_version : String
deriving DecidableEq, Repr

/-- Embeds `NotesManager.get_statistics`. -/
def get_statistics (nd : NotesData) : NotesStats :=
  let notes := nd.transaction_notes
  { total_notes := notes.length
    total_characters := (notes.map fun p => p.2.length).sum
    average_note_length :=
      if notes ≠ [] then
        ((notes.map fun p => p.2.length).sum : ℚ) / (notes.length : ℚ)
      else 0
    last_updated := nd.metadata.last_updated
    database_version := nd.metadata.version }

/-- States of the annotation store reachable by store operations, starting
from `__init__` against a world whose backing file holds no valid snapshot
yet (absent or corrupt). -/
inductive Reach : NotesData × FS → Prop where
  | init (f1 f2 : Bool) (now : String) (fs : FS)
      (hfile : fs.file = FileState.absent ∨ fs.file = FileState.corrupt) :
      Reach (initStore f1 f2 now fs)
  | load {s : NotesData × FS} (f : Bool) (now : String) (h : Reach s) :
      Reach (load_notes f now s.1 s.2)
  | set {s : NotesData × FS} (f : Bool) (now id note : String)
      (h : Reach s) :
      Reach ((set_note f now id note s.1 s.2).1, (set_note f now id note s.1 s.2).2.1)
  | clear {s : NotesData × FS} (f : Bool) (now : String) (h : Reach s) :
      Reach ((clear_all_notes f now s.1 s.2).1, (clear_all_notes f now s.1 s.2).2.1)

/-- Invariant: no stored note is empty or whitespace-only. -/
def NoBlankNotes (nd : NotesData) : Prop :=
  ∀ p ∈ nd.transaction_notes, pyStrip p.2 ≠ ""

/-- The backing file, when it holds a valid snapshot, satisfies the invariant. -/
def FileNoBlank (fs : FS) : Prop :=
  ∀ d, fs.file = FileState.good d → NoBlankNotes d

/-! ### `BankStatementReader` dataframe model

A dataframe is a list of column names plus a list of rows; a row maps column
names to cells.  A cell is a parsed numeric value (`ℚ`), a string, or
null/NaN.  `pd.to_numeric(·, errors='coerce')` is modelled by `toNumeric`:
numeric cells pass through, strings and nulls coerce to NaN (`none`). -/

inductive Cell where
  | num (q : ℚ)
  | str (s : String)
  | null
deriving DecidableEq, Repr

abbrev DRow := List (String × Cell)

/-- Value of a row at a column (null when the row has no such entry). -/
def rowGet (r : DRow) (k : String) : Cell :=
  match r with
  | [] => Cell.null
  | (k', v) :: rest => if k' = k then v else rowGet rest k

structure DF where
  cols : List String
  rows : List DRow
deriving DecidableEq, Repr

def toNumeric : Cell → Option ℚ
  | Cell.num q => some q
  | _ => none

def ofNumeric : Option ℚ → Cell
  | some q => Cell.num q
  | none => Cell.null

/-- Write one field of a row (overwrite in place or append). -/
def setField (r : DRow) (k : String) (v : Cell) : DRow :=
  match r with
  | [] => [(k, v)]
  | (k', v') :: rest =>
    if k' = k then (k, v) :: rest else (k', v') :: setField rest k v

/-- Models `df[k] = <series computed row-wise>`. -/
def setCol (df : DF) (k : String) (f : DRow → Cell) : DF :=
  { cols := if k ∈ df.cols then df.cols else df.cols ++ [k]
    rows := df.rows.map fun r => setField r k (f r) }

/-- The `amount_handling` block of a schema mapping. -/
inductive AmountConfig where
  | single_column (column : String) (sign_convention : Option String)
  | split_columns (debit_column credit_column : String)
deriving DecidableEq, Repr

/-- Embeds `BankStatementReader.normalize_amount_column`.

`single_column`: parse the configured column (`to_numeric`, coerce), then
apply the sign convention — `positive_for_purchases_negative_for_payments`
keeps the value, `negative_for_debits` (also the default when the key is
absent) negates the parsed column; any other explicit value leaves the
parsed column untouched.  `split_columns`: parse debit and credit with
NaN→0 and sum them. -/
def normalize_amount_column (df : DF) (cfg : AmountConfig) : DF :=
  match cfg with
  | AmountConfig.single_column col sc =>
    if col ∈ df.cols then
      let df1 := setCol df "amount" fun r => ofNumeric (toNumeric (rowGet r col))
      let sign_convention := sc.getD "negative_for_debits"
      if sign_convention = "positive_for_purchases_negative_for_payments" then
        df1
      else if sign_convention = "negative_for_debits" then
        setCol df1 "amount" fun r =>
          ofNumeric ((toNumeric (rowGet r "amount")).map fun q => -q)
      else df1
    else df
  | AmountConfig.split_columns dcol ccol =>
    if dcol ∈ df.cols ∧ ccol ∈ df.cols then
      setCol df "amount" fun r =>
        Cell.num ((toNumeric (rowGet r dcol)).getD 0 +
          (toNumeric (rowGet r ccol)).getD 0)
    else df

/-- Pandas `series != 'Payment'` row test: equality holds only for an equal
string cell (NaN or numeric cells compare unequal). -/
def cellEqStr (c : Cell) (s : String) : Bool :=
  match c with
  | Cell.str t => t = s
  | _ => false

/-- Pandas `series.str.contains(pat, case=False, na=False)` row test. -/
def descContains (c : Cell) (pat : String) : Bool :=
  match c with
  | Cell.str t => containsCI t pat
  | _ => false

def wellsFargoPatterns : List String :=
  ["CREDIT CARD PAYMENT", "CC PAYMENT", "CARD PAYMENT"]

def genericPaymentPatterns : List String :=
  ["PAYMENT THANK YOU", "AUTOPAY", "ONLINE PAYMENT", "MOBILE PAYMENT",
   "ACH DEPOSIT INTERNET TRANSFER"]

/-- Successive `df = df[~df[col].str.contains(pat, case=False, na=False)]`
filters, one per pattern. -/
def dropByPatterns (colName : String) (pats : List String)
    (rows : List DRow) : List DRow :=
  pats.foldl
    (fun rs pat => rs.filter fun r => !(descContains (rowGet r colName) pat))
    rows

/-- The per-institution pass of `filter_credit_card_payments`. -/
def bankPassRows (bank : String) (cols : List String) (rows : List DRow) :
    List DRow :=
  if bank = "chase" then
    if "Type" ∈ cols then
      rows.filter fun r => !(cellEqStr (rowGet r "Type") "Payment")
    else if "type" ∈ cols then
      rows.filter fun r => !(cellEqStr (rowGet r "type") "Payment")
    else rows
  else if bank = "apple_card" then
    if "Type" ∈ cols ∧ "Category" ∈ cols then
      rows.filter fun r =>
        !(cellEqStr (rowGet r "Type") "Payment" &&
          cellEqStr (rowGet r "Category") "Payment")
    else if "type" ∈ cols ∧ "category" ∈ cols then
      rows.filter fun r =>
        !(cellEqStr (rowGet r "type") "Payment" &&
          cellEqStr (rowGet r "category") "Payment")
    else rows
  else if bank = "wells_fargo" then
    if "description" ∈ cols then
      dropByPatterns "description" wellsFargoPatterns rows
    else if "merchant" ∈ cols then
      dropByPatterns "merchant" wellsFargoPatterns rows
    else rows
  else rows

/-- The generic pass of `filter_credit_card_payments`. -/
def genericPassRows (cols : List String) (rows : List DRow) : List DRow :=
  if "description" ∈ cols then
    dropByPatterns "description" genericPaymentPatterns rows
  else rows

/-- Embeds `BankStatementReader.filter_credit_card_payments` (the `rows_removed`
count is only printed, not returned). -/
def filter_credit_card_payments (filter_payments : Bool) (df : DF)
    (bank : String) : DF :=
  if df.rows = [] ∨ filter_payments = false then df
  else
    { cols := df.cols
      rows := genericPassRows df.cols (bankPassRows bank df.cols df.rows) }

/-- Row-level keep-predicate of the per-institution pass. -/
def bankKeep (bank : String) (cols : List String) (r : DRow) : Bool :=
  if bank = "chase" then
    if "Type" ∈ cols then !(cellEqStr (rowGet r "Type") "Payment")
    else if "type" ∈ cols then !(cellEqStr (rowGet r "type") "Payment")
    else true
  else if bank = "apple_card" then
    if "Type" ∈ cols ∧ "Category" ∈ cols then
      !(cellEqStr (rowGet r "Type") "Payment" &&
        cellEqStr (rowGet r "Category") "Payment")
    else if "type" ∈ cols ∧ "category" ∈ cols then
      !(cellEqStr (rowGet r "type") "Payment" &&
        cellEqStr (rowGet r "category") "Payment")
    else true
  else if bank = "wells_fargo" then
    if "description" ∈ cols then
      wellsFargoPatterns.all fun pat =>
        !(descContains (rowGet r "description") pat)
    else if "merchant" ∈ cols then
      wellsFargoPatterns.all fun pat => !(descContains (rowGet r "merchant") pat)
    else true
  else true

/-- Row-level keep-predicate of the generic pass. -/
def genericKeep (cols : List String) (r : DRow) : Bool :=
  if "description" ∈ cols then
    genericPaymentPatterns.all fun pat =>
      !(descContains (rowGet r "description") pat)
  else true

/-! ### `CategoryNormalizer` -/

/-- The default mapping written by `create_default_mapping`. -/
def default_mapping : List (String × List String) :=
  [("dining", ["restaurant", "restaurants", "food", "dining", "cafe",
               "fast food", "takeout"]),
   ("groceries", ["grocery", "groceries", "supermarket", "market",
                  "food store"]),
   ("transportation", ["gas", "fuel", "uber", "lyft", "taxi", "bus", "train",
                       "parking"]),
   ("shopping", ["amazon", "walmart", "target", "store", "retail",
                 "purchase"]),
   ("entertainment", ["netflix", "spotify", "hulu", "movies", "games",
                      "subscription"]),
   ("income", ["salary", "paycheck", "deposit", "income", "wages", "bonus"]),
   ("housing", ["rent", "mortgage", "property", "home", "apartment"]),
   ("utilities", ["electric", "water", "internet", "phone", "cable",
                  "utilities"]),
   ("healthcare", ["medical", "doctor", "pharmacy", "hospital", "health",
                   "dental"]),
   ("insurance", ["insurance", "coverage", "policy", "premium"]),
   ("fees", ["atm", "fee", "charge", "penalty", "service fee"]),
   ("transfer", ["transfer", "payment", "wire", "check", "deposit"])]

/-- Embeds `load_mapping`'s reverse-index construction:
`reverse_mapping[source.lower()] = target.lower()` over the nested loops,
with Python-dict insertion-order semantics. -/
def buildReverseMapping (m : List (String × List String)) :
    List (String × String) :=
  m.foldl
    (fun acc p =>
      p.2.foldl
        (fun acc2 source => dictInsert acc2 (lowerStr source) (lowerStr p.1))
        acc)
    []

/-- Python `key in category_lower` (both sides already lowercased). -/
def strContains (hay key : String) : Bool := infixB key.data hay.data

/-- Embeds `CategoryNormalizer.normalize_category` over a loaded reverse index;
`pd.isna(category)` is modelled by `Option`. -/
def normalize_category (mapping : List (String × String))
    (category : Option String) : String :=
  match category with
  | none => "other"
  | some c =>
    let category_lower := pyStrip (lowerStr c)
    match dictGet? mapping category_lower with
    | some v => v
    | none =>
      match mapping.find? (fun p => strContains category_lower p.1) with
      | some p => p.2
      | none => "other"

/-- The reverse index of the default mapping. -/
def defaultReverseMapping : List (String × String) :=
  buildReverseMapping default_mapping

/-- Chase scenario rows from the specification's testable properties. -/
def chaseSampleDF : DF :=
  { cols := ["bank", "type", "description", "amount"]
    rows :=
      [[("bank", Cell.str "chase"), ("type", Cell.str "Payment"),
        ("description", Cell.str "Payment Thank You-Mobile"),
        ("amount", Cell.num (18313/100))],
       [("bank", Cell.str "chase"), ("type", Cell.str "Sale"),
        ("description", Cell.str "HCTRA EZ TAG REBILL"),
        ("amount", Cell.num (-10))],
       [("bank", Cell.str "chase"), ("type", Cell.str "Sale"),
        ("description", Cell.str "H-E-B #659"),
        ("amount", Cell.num (-2139/100))]] }

theorem mem_dictInsert : ∀ (m : List (String × String)) (k v : String)
    (p : String × String), p ∈ dictInsert m k v → p = (k, v) ∨ p ∈ m := by
  intro m k v
  induction m with
  | nil =>
    intro p h
    simp only [dictInsert, List.mem_singleton] at h
    exact Or.inl h
  | cons q rest ih =>
    intro p h
    rcases q with ⟨k', v'⟩
    simp only [dictInsert] at h
    by_cases hk : k' = k
    · rw [if_pos hk] at h
      rcases List.mem_cons.mp h with h | h
      · exact Or.inl h
      · exact Or.inr (List.mem_cons_of_mem _ h)
    · rw [if_neg hk] at h
      rcases List.mem_cons.mp h with h | h
      · exact Or.inr (by simp [h])
      · rcases ih p h with h' | h'
        · exact Or.inl h'
        · exact Or.inr (List.mem_cons_of_mem _ h')

theorem dictGet?_eq_none_iff {m : List (String × String)} {k : String} :
    dictGet? m k = none ↔ ∀ v, (k, v) ∉ m := by
  induction m with
  | nil => simp [dictGet?]
  | cons q rest ih =>
    rcases q with ⟨k', v'⟩
    by_cases hk : k' = k
    · have hget : dictGet? ((k', v') :: rest) k = some v' := by
        simp [dictGet?, hk]
      constructor
      · intro h
        rw [hget] at h
        cases h
      · intro h
        exact absurd (by simp [hk]) (h v')
    · have hget : dictGet? ((k', v') :: rest) k = dictGet? rest k := by
        simp [dictGet?, hk]
      rw [hget, ih]
      constructor
      · intro h v hv
        rcases List.mem_cons.mp hv with hv | hv
        · exact hk (congrArg Prod.fst hv).symm
        · exact h v hv
      · intro h v hv
        exact h v (List.mem_cons_of_mem _ hv)

theorem dictGet?_mem : ∀ (m : List (String × String)) (k v : String),
    dictGet? m k = some v → (k, v) ∈ m := by
  intro m k
  induction m with
  | nil =>
    intro v h
    simp [dictGet?] at h
  | cons q rest ih =>
    intro v h
    rcases q with ⟨k', v'⟩
    by_cases hk : k' = k
    · have hget : dictGet? ((k', v') :: rest) k = some v' := by
        simp [dictGet?, hk]
      rw [hget] at h
      cases h
      simp [hk]
    · have hget : dictGet? ((k', v') :: rest) k = dictGet? rest k := by
        simp [dictGet?, hk]
      rw [hget] at h
      exact List.mem_cons_of_mem _ (ih v h)

/-- dropping leading whitespace twice is dropping once. -/
theorem dropWhile_idem (p : Char → Bool) (l : List Char) :
    (l.dropWhile p).dropWhile p = l.dropWhile p := by
  induction l with
  | nil => simp
  | cons a l ih =>
    by_cases h : p a
    · simp [List.dropWhile, h, ih]
    · simp [List.dropWhile, h]

/-- the first element surviving `dropWhile` fails the predicate. -/
theorem dropWhile_head_false (p : Char → Bool) :
    ∀ l a t, List.dropWhile p l = a :: t → p a = false := by
  intro l
  induction l with
  | nil => intro a t h; simp [List.dropWhile] at h
  | cons b l ih =>
    intro a t h
    by_cases hb : p b
    · rw [List.dropWhile_cons_of_pos hb] at h
      exact ih a t h
    · rw [List.dropWhile_cons_of_neg hb] at h
      cases h
      simpa using hb

theorem getLast?_cons_of_ne_nil {b : Char} {l : List Char} (h : l ≠ []) :
    (b :: l).getLast? = l.getLast? := by
  cases l with
  | nil => exact absurd rfl h
  | cons c t => simp [List.getLast?_cons_cons]

/-- Lemma: `dropWhile` keeps the last element when the result is nonempty. -/
theorem getLast?_dropWhile (p : Char → Bool) :
    ∀ l, List.dropWhile p l ≠ [] →
      (List.dropWhile p l).getLast? = l.getLast? := by
  intro l
  induction l with
  | nil => intro h; simp [List.dropWhile] at h
  | cons b l ih =>
    intro h
    by_cases hb : p b
    · rw [List.dropWhile_cons_of_pos hb] at h ⊢
      have hl : l ≠ [] := by
        intro hl
        subst hl
        simp [List.dropWhile] at h
      rw [ih h, getLast?_cons_of_ne_nil hl]
    · rw [List.dropWhile_cons_of_neg hb]

theorem dropWhile_of_head_false {p : Char → Bool} {l : List Char}
    (h : ∀ a ∈ l.head?, p a = false) : List.dropWhile p l = l := by
  cases l with
  | nil => simp
  | cons a t =>
    have ha : p a = false := by
      apply h
      simp
    have ha' : ¬ p a = true := by simp [ha]
    exact List.dropWhile_cons_of_neg ha'

theorem pyStripList_idem (cs : List Char) :
    pyStripList (pyStripList cs) = pyStripList cs := by
  have key : ∀ l1 : List Char,
      (∀ a t, l1 = a :: t → isSpaceChar a = false) →
      pyStripList (l1.reverse.dropWhile isSpaceChar).reverse
        = (l1.reverse.dropWhile isSpaceChar).reverse := by
    intro l1 hhead
    by_cases hme : l1.reverse.dropWhile isSpaceChar = []
    · rw [hme]
      rfl
    · have hr : (l1.reverse.dropWhile isSpaceChar).reverse.dropWhile isSpaceChar
          = (l1.reverse.dropWhile isSpaceChar).reverse := by
        apply dropWhile_of_head_false
        intro a ha
        rw [List.head?_reverse] at ha
        rw [getLast?_dropWhile isSpaceChar _ hme, List.getLast?_reverse] at ha
        cases hcase : l1 with
        | nil =>
          rw [hcase] at ha
          simp at ha
        | cons b t =>
          rw [hcase] at ha
          simp only [List.head?_cons, Option.mem_def, Option.some.injEq] at ha
          exact ha ▸ hhead b t hcase
      have hunfold : pyStripList (l1.reverse.dropWhile isSpaceChar).reverse
          = (((l1.reverse.dropWhile isSpaceChar).reverse.dropWhile
              isSpaceChar).reverse.dropWhile isSpaceChar).reverse := rfl
      rw [hunfold, hr, List.reverse_reverse, dropWhile_idem]
  have hmain : pyStripList cs
      = ((cs.dropWhile isSpaceChar).reverse.dropWhile isSpaceChar).reverse := rfl
  rw [hmain]
  exact key (cs.dropWhile isSpaceChar)
    (fun a t h => dropWhile_head_false isSpaceChar cs a t h)

theorem pyStrip_idem (s : String) : pyStrip (pyStrip s) = pyStrip s := by
  simp [pyStrip, pyStripList_idem]

theorem pyStrip_empty : pyStrip "" = "" := rfl

theorem pyStrip_ne_empty_of {s : String} (h : pyStrip s ≠ "") : s ≠ "" := by
  intro hs
  subst hs
  exact h rfl

theorem dictGet?_insert_self (m : List (String × String)) (k v : String) :
    dictGet? (dictInsert m k v) k = some v := by
  induction m with
  | nil => simp [dictInsert, dictGet?]
  | cons q rest ih =>
    rcases q with ⟨k', v'⟩
    by_cases hk : k' = k
    · simp [dictInsert, hk, dictGet?]
    · simp [dictInsert, hk, dictGet?, ih]

theorem dictGet?_remove_self (m : List (String × String)) (k : String) :
    dictGet? (dictRemove m k) k = none := by
  induction m with
  | nil => simp [dictRemove, dictGet?]
  | cons q rest ih =>
    rcases q with ⟨k', v'⟩
    by_cases hk : k' = k
    · simpa [dictRemove, hk, dictGet?] using ih
    · simpa [dictRemove, hk, dictGet?] using ih

theorem noBlank_insert {m : List (String × String)} {k v : String}
    (hm : ∀ p ∈ m, pyStrip p.2 ≠ "") (hv : pyStrip v ≠ "") :
    ∀ p ∈ dictInsert m k v, pyStrip p.2 ≠ "" := by
  intro p hp
  rcases mem_dictInsert m k v p hp with h | h
  · rw [h]
    exact hv
  · exact hm p h

theorem noBlank_remove {m : List (String × String)} {k : String}
    (hm : ∀ p ∈ m, pyStrip p.2 ≠ "") :
    ∀ p ∈ dictRemove m k, pyStrip p.2 ≠ "" := by
  intro p hp
  exact hm p (List.mem_of_mem_filter hp)

theorem save_preserves (fail : Bool) (now : String) (nd : NotesData) (fs : FS)
    (hnd : NoBlankNotes nd) (hfs : FileNoBlank fs) :
    NoBlankNotes (save_notes_to_file fail now nd fs).1 ∧
      FileNoBlank (save_notes_to_file fail now nd fs).2 := by
  cases fail with
  | false =>
    refine ⟨hnd, ?_⟩
    intro d hd
    have hd' :
        ({ nd with metadata := { nd.metadata with last_updated := now } } :
          NotesData) = d := by
      simpa [save_notes_to_file] using hd
    intro p hp
    apply hnd
    rw [← hd'] at hp
    exact hp
  | true =>
    exact ⟨hnd, hfs⟩

theorem load_preserves (fail : Bool) (now : String) (nd : NotesData) (fs : FS)
    (hnd : NoBlankNotes nd) (hfs : FileNoBlank fs) :
    NoBlankNotes (load_notes fail now nd fs).1 ∧
      FileNoBlank (load_notes fail now nd fs).2 := by
  unfold load_notes
  cases hf : fs.file with
  | good d => exact ⟨hfs d hf, hfs⟩
  | absent => exact save_preserves fail now nd fs hnd hfs
  | corrupt => exact save_preserves fail now nd fs hnd hfs

theorem set_preserves (fail : Bool) (now id note : String) (nd : NotesData)
    (fs : FS) (hnd : NoBlankNotes nd) (hfs : FileNoBlank fs) :
    NoBlankNotes (set_note fail now id note nd fs).1 ∧
      FileNoBlank (set_note fail now id note nd fs).2.1 := by
  unfold set_note
  by_cases hb : pyStrip note ≠ ""
  · simp only [if_pos hb]
    apply save_preserves
    · intro p hp
      refine noBlank_insert hnd ?_ p hp
      rw [pyStrip_idem]
      exact hb
    · exact hfs
  · simp only [if_neg hb]
    apply save_preserves
    · exact noBlank_remove hnd
    · exact hfs

theorem clear_preserves (fail : Bool) (now : String) (nd : NotesData)
    (fs : FS) (hfs : FileNoBlank fs) :
    NoBlankNotes (clear_all_notes fail now nd fs).1 ∧
      FileNoBlank (clear_all_notes fail now nd fs).2.1 := by
  unfold clear_all_notes
  apply save_preserves
  · intro p hp
    simp at hp
  · exact hfs

theorem init_preserves (f1 f2 : Bool) (now : String) (fs : FS)
    (hfile : fs.file = FileState.absent ∨ fs.file = FileState.corrupt) :
    NoBlankNotes (initStore f1 f2 now fs).1 ∧
      FileNoBlank (initStore f1 f2 now fs).2 := by
  unfold initStore ensure_notes_file_exists
  have hinit : NoBlankNotes (initialNotesData now) := by
    intro p hp
    simp [initialNotesData] at hp
  have hfs0 : FileNoBlank fs := by
    intro d hd
    rcases hfile with h | h <;> rw [h] at hd <;> cases hd
  rcases hfile with h | h <;> rw [h]
  · exact
      load_preserves f2 now _ _
        (save_preserves f1 now _ fs hinit hfs0).1
        (save_preserves f1 now _ fs hinit hfs0).2
  · exact load_preserves f2 now _ _ hinit hfs0

theorem reach_invariant : ∀ s, Reach s → NoBlankNotes s.1 ∧ FileNoBlank s.2 := by
  intro s h
  induction h with
  | init f1 f2 now fs hfile => exact init_preserves f1 f2 now fs hfile
  | load f now h ih => exact load_preserves f now _ _ ih.1 ih.2
  | set f now id note h ih => exact set_preserves f now id note _ _ ih.1 ih.2
  | clear f now h ih => exact clear_preserves f now _ _ ih.2

/-! ### Normal forms for the payment filter -/

theorem filter_chain (p q : DRow → Bool) (l : List DRow) :
    (l.filter p).filter q = l.filter fun a => p a && q a := by
  induction l with
  | nil => simp
  | cons a l ih =>
    by_cases hp : p a
    · by_cases hq : q a <;> simp [List.filter, hp, hq, ih]
    · simp [List.filter, hp, ih]

theorem dropByPatterns_eq_filter (colName : String) :
    ∀ (pats : List String) (rows : List DRow),
      dropByPatterns colName pats rows =
        rows.filter fun r =>
          pats.all fun pat => !(descContains (rowGet r colName) pat) := by
  intro pats
  induction pats with
  | nil =>
    intro rows
    simp [dropByPatterns]
  | cons pat pats ih =>
    intro rows
    have hstep : dropByPatterns colName (pat :: pats) rows =
        dropByPatterns colName pats
          (rows.filter fun r => !(descContains (rowGet r colName) pat)) := rfl
    rw [hstep, ih, filter_chain]
    apply List.filter_congr
    intro r _
    simp [List.all_cons]

theorem bankPassRows_eq_filter (bank : String) (cols : List String)
    (rows : List DRow) :
    bankPassRows bank cols rows = rows.filter (bankKeep bank cols) := by
  unfold bankPassRows bankKeep
  by_cases hc : bank = "chase"
  · simp only [if_pos hc]
    by_cases h1 : "Type" ∈ cols
    · simp [h1]
    · by_cases h2 : "type" ∈ cols <;> simp [h1, h2]
  · by_cases ha : bank = "apple_card"
    · simp only [if_neg hc, if_pos ha]
      by_cases h1 : "Type" ∈ cols ∧ "Category" ∈ cols
      · simp [h1]
      · by_cases h2 : "type" ∈ cols ∧ "category" ∈ cols <;> simp [h1, h2]
    · by_cases hw : bank = "wells_fargo"
      · simp only [if_neg hc, if_neg ha, if_pos hw]
        by_cases h1 : "description" ∈ cols
        · simp [h1, dropByPatterns_eq_filter]
        · by_cases h2 : "merchant" ∈ cols <;>
            simp [h1, h2, dropByPatterns_eq_filter]
      · simp [hc, ha, hw]

theorem genericPassRows_eq_filter (cols : List String) (rows : List DRow) :
    genericPassRows cols rows = rows.filter (genericKeep cols) := by
  unfold genericPassRows genericKeep
  by_cases h : "description" ∈ cols
  · simp [h, dropByPatterns_eq_filter]
  · simp [h]

/-- Lemma: `filter_credit_card_payments` with filtering enabled is one row-local
filter over the original rows. -/
theorem ccp_normal_form (df : DF) (bank : String) :
    filter_credit_card_payments true df bank =
      { cols := df.cols
        rows := df.rows.filter fun r =>
          bankKeep bank df.cols r && genericKeep df.cols r } := by
  unfold filter_credit_card_payments
  by_cases he : df.rows = []
  · rw [if_pos (Or.inl he)]
    cases df with
    | mk cols rows =>
      simp only at he
      simp [he]
  · rw [if_neg (by simp [he])]
    rw [bankPassRows_eq_filter, genericPassRows_eq_filter, filter_chain]

/-! ### Claim theorems -/

/-- C3: `generate_transaction_id` is a pure function of the string forms of
`(date, amount, description, bank, source_file)` — rows agreeing on those
five fields get the same id, so no other field influences the result — and
the id is the first 16 hex characters of the SHA-256 digest of the five
fields joined by `'|'`. -/
theorem C3_computeId_pure (r1 r2 : List (String × String))
    (h : ∀ f ∈ ["date", "amount", "description", "bank", "source_file"],
      rowGetStr r1 f = rowGetStr r2 f) :
    generate_transaction_id r1 = generate_transaction_id r2 ∧
    ∀ row : List (String × String),
      generate_transaction_id row =
        ⟨(sha256hexChars (strBytes (String.intercalate "|"
          [rowGetStr row "date", rowGetStr row "amount",
           rowGetStr row "description", rowGetStr row "bank",
           rowGetStr row "source_file"]))).take 16⟩ := by
  constructor
  · have hd := h "date" (by simp)
    have ham := h "amount" (by simp)
    have hde := h "description" (by simp)
    have hb := h "bank" (by simp)
    have hs := h "source_file" (by simp)
    simp [generate_transaction_id, hd, ham, hde, hb, hs]
  · intro row
    rfl

theorem C3_computeId_pure_witness :
    (∀ f ∈ ["date", "amount", "description", "bank", "source_file"],
      rowGetStr [("date", "2025-07-13"), ("amount", "-21.39"),
        ("description", "H-E-B #659"), ("bank", "chase"),
        ("source_file", "a.csv"), ("category", "Groceries")] f =
      rowGetStr [("category", "Travel"), ("memo", "x"),
        ("date", "2025-07-13"), ("amount", "-21.39"),
        ("description", "H-E-B #659"), ("bank", "chase"),
        ("source_file", "a.csv")] f) ∧
    generate_transaction_id [("date", "2025-07-13"), ("amount", "-21.39"),
        ("description", "H-E-B #659"), ("bank", "chase"),
        ("source_file", "a.csv"), ("category", "Groceries")] =
      generate_transaction_id [("category", "Travel"), ("memo", "x"),
        ("date", "2025-07-13"), ("amount", "-21.39"),
        ("description", "H-E-B #659"), ("bank", "chase"),
        ("source_file", "a.csv")] :=
  ⟨by decide, (C3_computeId_pure _ _ (by decide)).1⟩

/-- C1 (counterexample): with the backing file valid and an I/O error
striking the persist step, `set_note` still returns `True` and the
in-memory note map has changed — contradicting the claim that a failed
persist makes `set` return failure with the map unchanged. -/
theorem C1_counterexample :
    (set_note true "t1" "tx1" "hello" (initialNotesData "t0")
        ⟨FileState.good (initialNotesData "t0"), false⟩).2.2 = true ∧
    (set_note true "t1" "tx1" "hello" (initialNotesData "t0")
        ⟨FileState.good (initialNotesData "t0"), false⟩).1.transaction_notes ≠
      (initialNotesData "t0").transaction_notes := by
  constructor
  · rfl
  · decide

/-- C1 (amended): when the persist step of `set(id, note)` fails with an
I/O error, `set` still returns success (`_save_notes_to_file` swallows the
exception), the in-memory note map retains the update, and the temporary
file is removed and the backing file left untouched (the world state is
unchanged). -/
theorem C1_amended (now id note : String) (nd : NotesData) (fs : FS) :
    (set_note true now id note nd fs).2.2 = true ∧
    (set_note true now id note nd fs).1.transaction_notes =
      (if pyStrip note ≠ "" then
        dictInsert nd.transaction_notes id (pyStrip note)
       else dictRemove nd.transaction_notes id) ∧
    (set_note true now id note nd fs).2.1 = fs :=
  ⟨rfl, rfl, rfl⟩

/-- C2: after a successful `set(id, "hello")`, `get(id)` returns `"hello"`;
after a successful `set(id, w)` for a whitespace-only `w`, `get(id)` returns
`""` and `id` is absent from the underlying map. -/
theorem C2_round_trip (fail : Bool) (now id note : String) (nd : NotesData)
    (fs : FS) (hblank : pyStrip note = "") :
    ((set_note fail now id "hello" nd fs).2.2 = true →
      get_note (set_note fail now id "hello" nd fs).1 id = "hello") ∧
    ((set_note fail now id note nd fs).2.2 = true →
      get_note (set_note fail now id note nd fs).1 id = "" ∧
      dictGet? (set_note fail now id note nd fs).1.transaction_notes id =
        none) := by
  constructor
  · intro _
    have hne : pyStrip "hello" ≠ "" := by decide
    have hh : pyStrip "hello" = "hello" := by decide
    have hmap : (set_note fail now id "hello" nd fs).1.transaction_notes =
        dictInsert nd.transaction_notes id (pyStrip "hello") := by
      cases fail <;> simp [set_note, save_notes_to_file, hne]
    simp [get_note, dictGetD, hmap, hh, dictGet?_insert_self]
  · intro _
    have hmap : (set_note fail now id note nd fs).1.transaction_notes =
        dictRemove nd.transaction_notes id := by
      cases fail <;> simp [set_note, save_notes_to_file, hblank]
    constructor
    · simp [get_note, dictGetD, hmap, dictGet?_remove_self]
    · simp [hmap, dictGet?_remove_self]

theorem C2_round_trip_witness :
    pyStrip "  " = "" ∧
    get_note (set_note false "t1" "tx1" "hello"
        (initialNotesData "t0") ⟨FileState.absent, false⟩).1 "tx1" = "hello" ∧
    (get_note (set_note false "t1" "tx1" "  "
        (initialNotesData "t0") ⟨FileState.absent, false⟩).1 "tx1" = "" ∧
      dictGet? (set_note false "t1" "tx1" "  "
        (initialNotesData "t0") ⟨FileState.absent, false⟩).1.transaction_notes
        "tx1" = none) :=
  ⟨by decide,
   (C2_round_trip false "t1" "tx1" "  " (initialNotesData "t0")
      ⟨FileState.absent, false⟩ (by decide)).1 rfl,
   (C2_round_trip false "t1" "tx1" "  " (initialNotesData "t0")
      ⟨FileState.absent, false⟩ (by decide)).2 rfl⟩

/-- C4: in every state reachable by store operations (initialize, load, set,
clear), no key maps to an empty or whitespace-only note, and `get` returns
the empty string exactly when the key is absent. -/
theorem C4_invariant (s : NotesData × FS) (h : Reach s) :
    (∀ p ∈ s.1.transaction_notes, pyStrip p.2 ≠ "" ∧ p.2 ≠ "") ∧
    (∀ id, get_note s.1 id = "" ↔
      dictGet? s.1.transaction_notes id = none) := by
  have hinv := (reach_invariant s h).1
  constructor
  · intro p hp
    refine ⟨hinv p hp, ?_⟩
    intro he
    exact hinv p hp (by rw [he]; rfl)
  · intro id
    constructor
    · intro hg
      cases hget : dictGet? s.1.transaction_notes id with
      | none => rfl
      | some v =>
        have hv : v ≠ "" := by
          have hbv := hinv (id, v) (dictGet?_mem _ _ _ hget)
          intro he
          exact hbv (by rw [he]; rfl)
        simp only [get_note, dictGetD, hget, Option.getD_some] at hg
        exact absurd hg hv
    · intro hn
      simp [get_note, dictGetD, hn]

theorem C4_invariant_witness :
    (∀ p ∈ (initStore false false "t"
        ⟨FileState.absent, false⟩).1.transaction_notes,
      pyStrip p.2 ≠ "" ∧ p.2 ≠ "") ∧
    (∀ id, get_note (initStore false false "t"
        ⟨FileState.absent, false⟩).1 id = "" ↔
      dictGet? (initStore false false "t"
        ⟨FileState.absent, false⟩).1.transaction_notes id = none) :=
  C4_invariant _ (Reach.init false false "t" ⟨FileState.absent, false⟩
    (Or.inl rfl))

/-- C9: a blank (empty or whitespace-only) search term returns the empty
result rather than matching every note; a non-blank term returns exactly the
entries whose note contains the term case-insensitively. -/
theorem C9_search (nd : NotesData) (term : String) :
    (pyStrip term = "" → search_notes nd term = []) ∧
    (pyStrip term ≠ "" → ∀ p : String × String,
      p ∈ search_notes nd term ↔
        p ∈ nd.transaction_notes ∧ containsCI p.2 term = true) := by
  constructor
  · intro h
    simp [search_notes, h]
  · intro h p
    simp only [search_notes, if_neg h]
    exact List.mem_filter

theorem C9_search_witness :
    (pyStrip "  " = "" ∧
      search_notes ⟨[("t1", "Lunch with Bob")], ⟨"1.0", "t", "t"⟩⟩ "  " = []) ∧
    (pyStrip "bob" ≠ "" ∧
      (("t1", "Lunch with Bob") ∈
          search_notes ⟨[("t1", "Lunch with Bob")], ⟨"1.0", "t", "t"⟩⟩ "bob" ↔
        ("t1", "Lunch with Bob") ∈
            ([("t1", "Lunch with Bob")] : List (String × String)) ∧
          containsCI "Lunch with Bob" "bob" = true)) :=
  ⟨⟨by decide, (C9_search ⟨[("t1", "Lunch with Bob")], ⟨"1.0", "t", "t"⟩⟩
      "  ").1 (by decide)⟩,
   ⟨by decide, (C9_search ⟨[("t1", "Lunch with Bob")], ⟨"1.0", "t", "t"⟩⟩
      "bob").2 (by decide) ("t1", "Lunch with Bob")⟩⟩

/-- C10: statistics never divides by zero — on an empty note map all three
numeric statistics are 0, and on a nonempty map the average note length is
the total character count divided by the note count. -/
theorem C10_statistics (nd : NotesData) :
    (nd.transaction_notes = [] →
      (get_statistics nd).total_notes = 0 ∧
      (get_statistics nd).total_characters = 0 ∧
      (get_statistics nd).average_note_length = 0) ∧
    (nd.transaction_notes ≠ [] →
      (get_statistics nd).average_note_length =
        ((get_statistics nd).total_characters : ℚ) /
          ((get_statistics nd).total_notes : ℚ)) := by
  constructor
  · intro h
    simp [get_statistics, h]
  · intro h
    simp only [get_statistics, if_pos h]
    rw [Nat.cast_list_sum, List.map_map]
    rfl

theorem C10_statistics_witness :
    (⟨[("id1", "abc"), ("id2", "de")], ⟨"1.0", "t", "t"⟩⟩ :
        NotesData).transaction_notes ≠ [] ∧
    (get_statistics ⟨[("id1", "abc"), ("id2", "de")],
        ⟨"1.0", "t", "t"⟩⟩).average_note_length =
      ((get_statistics ⟨[("id1", "abc"), ("id2", "de")],
          ⟨"1.0", "t", "t"⟩⟩).total_characters : ℚ) /
        ((get_statistics ⟨[("id1", "abc"), ("id2", "de")],
            ⟨"1.0", "t", "t"⟩⟩).total_notes : ℚ) :=
  ⟨by decide, (C10_statistics ⟨[("id1", "abc"), ("id2", "de")],
      ⟨"1.0", "t", "t"⟩⟩).2 (by decide)⟩

theorem rowGet_setField_self (r : DRow) (k : String) (v : Cell) :
    rowGet (setField r k v) k = v := by
  induction r with
  | nil => simp [setField, rowGet]
  | cons q rest ih =>
    rcases q with ⟨k', v'⟩
    by_cases hk : k' = k
    · simp [setField, hk, rowGet]
    · simp [setField, hk, rowGet, ih]

theorem setField_setField (r : DRow) (k : String) (v w : Cell) :
    setField (setField r k v) k w = setField r k w := by
  induction r with
  | nil => simp [setField]
  | cons q rest ih =>
    rcases q with ⟨k', v'⟩
    by_cases hk : k' = k
    · simp [setField, hk]
    · simp [setField, hk, ih]

theorem toNumeric_ofNumeric (x : Option ℚ) : toNumeric (ofNumeric x) = x := by
  cases x <;> rfl

/-- C5: amount normalization.  `single_column` parses the configured column
(non-numeric cells coerce to null); under
`positive_for_purchases_negative_for_payments` every parsed value is kept
unchanged, and under `negative_for_debits` — explicit or as the default when
the key is absent — every parsed value is negated.  `split_columns` treats
unparsable/missing debit and credit cells as 0 and sums them. -/
theorem C5_normalize_amount (df : DF) (col dcol ccol : String)
    (sc : Option String) (hcol : col ∈ df.cols) (hd : dcol ∈ df.cols)
    (hc : ccol ∈ df.cols)
    (hdef : sc = none ∨ sc = some "negative_for_debits") :
    (∀ s, toNumeric (Cell.str s) = none) ∧
    (normalize_amount_column df (AmountConfig.single_column col
        (some "positive_for_purchases_negative_for_payments"))).rows =
      df.rows.map (fun r => setField r "amount"
        (ofNumeric (toNumeric (rowGet r col)))) ∧
    (normalize_amount_column df (AmountConfig.single_column col sc)).rows =
      df.rows.map (fun r => setField r "amount"
        (ofNumeric ((toNumeric (rowGet r col)).map fun q => -q))) ∧
    (normalize_amount_column df (AmountConfig.split_columns dcol ccol)).rows =
      df.rows.map (fun r => setField r "amount"
        (Cell.num ((toNumeric (rowGet r dcol)).getD 0 +
          (toNumeric (rowGet r ccol)).getD 0))) := by
  refine ⟨fun s => rfl, ?_, ?_, ?_⟩
  · simp [normalize_amount_column, setCol, hcol]
  · have hgd : sc.getD "negative_for_debits" = "negative_for_debits" := by
      rcases hdef with h | h <;> simp [h]
    simp only [normalize_amount_column, if_pos hcol, hgd,
      if_neg (by decide :
        ¬("negative_for_debits" =
          "positive_for_purchases_negative_for_payments")), if_pos rfl,
      setCol, List.map_map]
    apply List.map_congr_left
    intro r _
    simp only [Function.comp_apply, rowGet_setField_self, toNumeric_ofNumeric,
      setField_setField]
  · simp [normalize_amount_column, setCol, hd, hc]

theorem C5_normalize_amount_witness :
    ("Amount" ∈ (⟨["Amount", "Debit", "Credit"],
        [[("Amount", Cell.num 8)], [("Amount", Cell.num (-18553/100))],
         [("Amount", Cell.num (-2139/100))], [("Amount", Cell.str "oops")]]⟩ :
          DF).cols ∧
      "Debit" ∈ (⟨["Amount", "Debit", "Credit"],
        [[("Amount", Cell.num 8)], [("Amount", Cell.num (-18553/100))],
         [("Amount", Cell.num (-2139/100))], [("Amount", Cell.str "oops")]]⟩ :
          DF).cols ∧
      "Credit" ∈ (⟨["Amount", "Debit", "Credit"],
        [[("Amount", Cell.num 8)], [("Amount", Cell.num (-18553/100))],
         [("Amount", Cell.num (-2139/100))], [("Amount", Cell.str "oops")]]⟩ :
          DF).cols) ∧
    (∀ s, toNumeric (Cell.str s) = none) ∧
    (normalize_amount_column ⟨["Amount", "Debit", "Credit"],
        [[("Amount", Cell.num 8)], [("Amount", Cell.num (-18553/100))],
         [("Amount", Cell.num (-2139/100))], [("Amount", Cell.str "oops")]]⟩
        (AmountConfig.single_column "Amount"
          (some "positive_for_purchases_negative_for_payments"))).rows =
      (⟨["Amount", "Debit", "Credit"],
        [[("Amount", Cell.num 8)], [("Amount", Cell.num (-18553/100))],
         [("Amount", Cell.num (-2139/100))], [("Amount", Cell.str "oops")]]⟩ :
          DF).rows.map (fun r => setField r "amount"
        (ofNumeric (toNumeric (rowGet r "Amount")))) ∧
    (normalize_amount_column ⟨["Amount", "Debit", "Credit"],
        [[("Amount", Cell.num 8)], [("Amount", Cell.num (-18553/100))],
         [("Amount", Cell.num (-2139/100))], [("Amount", Cell.str "oops")]]⟩
        (AmountConfig.single_column "Amount" none)).rows =
      (⟨["Amount", "Debit", "Credit"],
        [[("Amount", Cell.num 8)], [("Amount", Cell.num (-18553/100))],
         [("Amount", Cell.num (-2139/100))], [("Amount", Cell.str "oops")]]⟩ :
          DF).rows.map (fun r => setField r "amount"
        (ofNumeric ((toNumeric (rowGet r "Amount")).map fun q => -q))) ∧
    (normalize_amount_column ⟨["Amount", "Debit", "Credit"],
        [[("Amount", Cell.num 8)], [("Amount", Cell.num (-18553/100))],
         [("Amount", Cell.num (-2139/100))], [("Amount", Cell.str "oops")]]⟩
        (AmountConfig.split_columns "Debit" "Credit")).rows =
      (⟨["Amount", "Debit", "Credit"],
        [[("Amount", Cell.num 8)], [("Amount", Cell.num (-18553/100))],
         [("Amount", Cell.num (-2139/100))], [("Amount", Cell.str "oops")]]⟩ :
          DF).rows.map (fun r => setField r "amount"
        (Cell.num ((toNumeric (rowGet r "Debit")).getD 0 +
          (toNumeric (rowGet r "Credit")).getD 0))) :=
  ⟨⟨by decide, by decide, by decide⟩,
   C5_normalize_amount _ "Amount" "Debit" "Credit" none (by decide)
     (by decide) (by decide) (Or.inl rfl)⟩

/-- C6: with filtering disabled the payment filter is the identity, and for
every bank and row set applying it twice gives the same result as once. -/
theorem C6_filter_idempotent :
    (∀ (df : DF) (bank : String),
      filter_credit_card_payments false df bank = df) ∧
    ∀ (fp : Bool) (df : DF) (bank : String),
      filter_credit_card_payments fp
          (filter_credit_card_payments fp df bank) bank =
        filter_credit_card_payments fp df bank := by
  constructor
  · intro df bank
    simp [filter_credit_card_payments]
  · intro fp df bank
    cases fp with
    | false => simp [filter_credit_card_payments]
    | true =>
      rw [ccp_normal_form df bank, ccp_normal_form]
      dsimp only
      rw [filter_chain]
      congr 1
      apply List.filter_congr
      intro r _
      exact Bool.and_self _

/-- C7: the enabled filter drops exactly the rows the rules name — for chase
the rows with type `"Payment"`, for apple_card the rows with both type and
category `"Payment"`, and for every bank the rows whose description contains
one of the five generic payment phrases case-insensitively; on the Chase
scenario it removes exactly the first row, leaving the other two. -/
theorem C7_filter_rules :
    (∀ df : DF, "type" ∈ df.cols → "Type" ∉ df.cols →
        "description" ∈ df.cols →
      filter_credit_card_payments true df "chase" =
        ⟨df.cols, df.rows.filter fun r =>
          !(cellEqStr (rowGet r "type") "Payment") &&
          genericPaymentPatterns.all fun pat =>
            !(descContains (rowGet r "description") pat)⟩) ∧
    (∀ df : DF, "Type" ∉ df.cols → "type" ∈ df.cols →
        "category" ∈ df.cols → "description" ∈ df.cols →
      filter_credit_card_payments true df "apple_card" =
        ⟨df.cols, df.rows.filter fun r =>
          !(cellEqStr (rowGet r "type") "Payment" &&
            cellEqStr (rowGet r "category") "Payment") &&
          genericPaymentPatterns.all fun pat =>
            !(descContains (rowGet r "description") pat)⟩) ∧
    (∀ (bank : String) (df : DF) (r : DRow), "description" ∈ df.cols →
      r ∈ (filter_credit_card_payments true df bank).rows →
      ∀ pat ∈ genericPaymentPatterns,
        descContains (rowGet r "description") pat = false) ∧
    filter_credit_card_payments true chaseSampleDF "chase" =
      ⟨chaseSampleDF.cols,
       [[("bank", Cell.str "chase"), ("type", Cell.str "Sale"),
         ("description", Cell.str "HCTRA EZ TAG REBILL"),
         ("amount", Cell.num (-10))],
        [("bank", Cell.str "chase"), ("type", Cell.str "Sale"),
         ("description", Cell.str "H-E-B #659"),
         ("amount", Cell.num (-2139/100))]]⟩ := by
  refine ⟨?_, ?_, ?_, ?_⟩
  · intro df h1 h2 h3
    rw [ccp_normal_form]
    congr 1
    apply List.filter_congr
    intro r _
    simp [bankKeep, genericKeep, h1, h2, h3]
  · intro df h1 h2 h3 h4
    rw [ccp_normal_form]
    congr 1
    apply List.filter_congr
    intro r _
    simp [bankKeep, genericKeep, h1, h2, h3, h4]
  · intro bank df r hdesc hr
    rw [ccp_normal_form] at hr
    dsimp only at hr
    have hpred := (List.mem_filter.mp hr).2
    have hgen : genericKeep df.cols r = true :=
      (Bool.and_eq_true _ _ |>.mp hpred).2
    rw [genericKeep, if_pos hdesc] at hgen
    intro pat hpat
    have := (List.all_eq_true.mp hgen) pat hpat
    simpa using this
  · rfl

theorem C7_filter_rules_witness :
    ("type" ∈ chaseSampleDF.cols ∧ "Type" ∉ chaseSampleDF.cols ∧
      "description" ∈ chaseSampleDF.cols) ∧
    filter_credit_card_payments true chaseSampleDF "chase" =
      ⟨chaseSampleDF.cols, chaseSampleDF.rows.filter fun r =>
        !(cellEqStr (rowGet r "type") "Payment") &&
        genericPaymentPatterns.all fun pat =>
          !(descContains (rowGet r "description") pat)⟩ :=
  ⟨⟨by decide, by decide, by decide⟩,
   C7_filter_rules.1 chaseSampleDF (by decide) (by decide) (by decide)⟩

/-- C8: classification of a missing category is `"other"` for every loaded
mapping, and under the default mapping `"Fast Food"` classifies to
`"dining"` (exact reverse-index match after lowercase+trim) while
`"Some Unknown Thing"` falls through to `"other"`. -/
theorem C8_classify (mapping : List (String × String)) :
    normalize_category mapping none = "other" ∧
    normalize_category defaultReverseMapping (some "Fast Food") = "dining" ∧
    normalize_category defaultReverseMapping (some "Some Unknown Thing") =
      "other" :=
  ⟨rfl, by decide, by decide⟩
